import Mathlib

set_option linter.unusedVariables false
set_option linter.unnecessarySeqFocus false

/-!
A verification development for the syntax-tree construction and semantic
analysis engine of the OSL compiler front end (src/liboslcomp/ast.cpp).
The C++ node constructors are shallowly embedded as Lean functions over an
explicit compiler state (source cursor, symbol table); diagnostics are
returned as lists.  C++ `int` is modelled as unbounded `Int` (signed
overflow and out-of-range shifts are undefined behaviour in C++; the model
uses the mathematical values, truncating division and arithmetic shifts,
which agree with the machine behaviour on all defined inputs).  OSL
`float` literal payloads are modelled as rationals; the theorems below
about float literals depend only on which operators fold, the literal
node structure, and the exact division-by-zero guard, none of which
involve rounding.
-/

namespace OSLAST

/-- Node-kind discriminants, following the NodeType enumeration used by
ast.cpp (shader/function/variable declaration, references, indexing,
struct select, statements, expressions, literals). -/
inductive NodeType where
  | shader_declaration_node
  | function_declaration_node
  | variable_declaration_node
  | variable_ref_node
  | preincdec_node
  | postincdec_node
  | index_node
  | structselect_node
  | conditional_statement_node
  | loop_statement_node
  | loopmod_statement_node
  | return_statement_node
  | compound_initializer_node
  | assign_expression_node
  | unary_expression_node
  | binary_expression_node
  | ternary_expression_node
  | typecast_expression_node
  | type_constructor_node
  | function_call_node
  | literal_node
  deriving DecidableEq

/-- The expression operators of the parser (the `Operator` enumeration):
assignment, arithmetic, comparison, bitwise, shift, logical, unary. -/
inductive Operator where
  | Assign
  | Mul
  | Div
  | Add
  | Sub
  | Mod
  | Equal
  | NotEqual
  | Greater
  | GreaterEqual
  | Less
  | LessEqual
  | BitAnd
  | BitOr
  | Xor
  | And
  | Or
  | ShiftLeft
  | ShiftRight
  | Not
  | Compl
  deriving DecidableEq

/-- An injective integer encoding of the operator enumeration; nodes store
their operator as a plain integer code (`m_op`), exactly as the C++ node
base class does.  The concrete numbers are arbitrary but fixed. -/
def Operator.code : Operator → Int
  | .Assign => 1
  | .Mul => 2
  | .Div => 3
  | .Add => 4
  | .Sub => 5
  | .Mod => 6
  | .Equal => 7
  | .NotEqual => 8
  | .Greater => 9
  | .GreaterEqual => 10
  | .Less => 11
  | .LessEqual => 12
  | .BitAnd => 13
  | .BitOr => 14
  | .Xor => 15
  | .And => 16
  | .Or => 17
  | .ShiftLeft => 18
  | .ShiftRight => 19
  | .Not => 20
  | .Compl => 21

/-- ASTbinary_expression::opword from ast.cpp: the canonical word for each
binary operator, used to build the operator-overload lookup name. -/
def Operator.opword : Operator → String
  | .Mul => "mul"
  | .Div => "div"
  | .Add => "add"
  | .Sub => "sub"
  | .Mod => "mod"
  | .Equal => "eq"
  | .NotEqual => "neq"
  | .Greater => "gt"
  | .GreaterEqual => "ge"
  | .Less => "lt"
  | .LessEqual => "le"
  | .BitAnd => "bitand"
  | .BitOr => "bitor"
  | .Xor => "xor"
  | .And => "and"
  | .Or => "or"
  | .ShiftLeft => "shl"
  | .ShiftRight => "shr"
  | _ => "unknown"

/-- Base types of the shading language type descriptors. -/
inductive BaseType where
  | unknownT
  | intT
  | floatT
  | stringT
  | colorT
  | pointT
  | vectorT
  | normalT
  | matrixT
  | structT (id : Nat)
  deriving DecidableEq

/-- Array-ness of a type descriptor, mirroring the arraylen encoding of
the type library (0 = not an array, -1 = unsized array, n = length n). -/
inductive ArrLen where
  | scalarA
  | unsizedA
  | sizedA (n : Nat)
  deriving DecidableEq

/-- Modelled from the spec: the external type-descriptor library
(section 6 collaborator contract).  A type is a base type, a closure
flag, and array-ness; the default-constructed descriptor is UNKNOWN. -/
structure TypeSpec where
  base : BaseType := .unknownT
  closure : Bool := false
  arr : ArrLen := .scalarA
  deriving DecidableEq

def TypeSpec.is_array (t : TypeSpec) : Bool := t.arr ≠ .scalarA

def TypeSpec.is_unsized_array (t : TypeSpec) : Bool := t.arr = .unsizedA

def TypeSpec.elementtype (t : TypeSpec) : TypeSpec := { t with arr := .scalarA }

def TypeSpec.arraylength (t : TypeSpec) : Int :=
  match t.arr with
  | .scalarA => 0
  | .unsizedA => -1
  | .sizedA n => n

def TypeSpec.is_closure (t : TypeSpec) : Bool := t.closure

def TypeSpec.is_int (t : TypeSpec) : Bool :=
  t.base = .intT && !t.closure && t.arr = .scalarA

def TypeSpec.is_float (t : TypeSpec) : Bool :=
  t.base = .floatT && !t.closure && t.arr = .scalarA

def TypeSpec.is_color (t : TypeSpec) : Bool :=
  t.base = .colorT && !t.closure && t.arr = .scalarA

/-- A point, vector or normal (not color), non-closure, non-array. -/
def TypeSpec.is_vectriple (t : TypeSpec) : Bool :=
  (t.base = .pointT || t.base = .vectorT || t.base = .normalT)
    && !t.closure && t.arr = .scalarA

/-- A three-component aggregate (color, point, vector or normal), not an
array.  A closure of a triple still counts as a triple here, which is why
ast.cpp guards component access with an explicit non-closure test. -/
def TypeSpec.is_triple (t : TypeSpec) : Bool :=
  (t.base = .colorT || t.base = .pointT || t.base = .vectorT
      || t.base = .normalT)
    && t.arr = .scalarA

def TypeSpec.is_matrix (t : TypeSpec) : Bool :=
  t.base = .matrixT && !t.closure && t.arr = .scalarA

def TypeSpec.is_structure (t : TypeSpec) : Bool :=
  (match t.base with | .structT _ => true | _ => false) && t.arr = .scalarA

def TypeSpec.is_structure_array (t : TypeSpec) : Bool :=
  (match t.base with | .structT _ => true | _ => false) && t.arr ≠ .scalarA

/-- The struct id of a structure type (0 when not a structure), mirroring
TypeSpec::structure(). -/
def TypeSpec.structure_id (t : TypeSpec) : Int :=
  match t.base with
  | .structT id => id
  | _ => 0

/-- The UNKNOWN type descriptor: a node carrying it signals an
already-diagnosed semantic error.  Equality with the default-constructed
descriptor, exactly as the `t == TypeSpec()` comparison in ast.cpp. -/
def TypeSpec.is_unknown (t : TypeSpec) : Bool := t = {}

def floatTS : TypeSpec := { base := .floatT }

def intTS : TypeSpec := { base := .intT }

/-- A plain rendering of a type descriptor for diagnostic text.  The spec
places diagnostic message formatting outside this core; any fixed
rendering serves. -/
def TypeSpec.str (t : TypeSpec) : String :=
  (if t.closure then "closure " else "")
    ++ (match t.base with
        | .unknownT => "unknown"
        | .intT => "int"
        | .floatT => "float"
        | .stringT => "string"
        | .colorT => "color"
        | .pointT => "point"
        | .vectorT => "vector"
        | .normalT => "normal"
        | .matrixT => "matrix"
        | .structT id => "struct" ++ toString id)
    ++ (match t.arr with
        | .scalarA => ""
        | .unsizedA => "[]"
        | .sizedA n => "[" ++ toString n ++ "]")

/-- Literal payloads.  Float literals carry a rational in this model; see
the file comment. -/
inductive LitVal where
  | intv (i : Int)
  | floatv (q : ℚ)
  | strv (s : String)
  deriving DecidableEq

/-- Symbol kinds (SymType in the symbol table collaborator). -/
inductive SymType where
  | SymTypeParam
  | SymTypeOutputParam
  | SymTypeLocal
  | SymTypeTemp
  | SymTypeGlobal
  | SymTypeConst
  | SymTypeFunction
  | SymTypeType
  deriving DecidableEq

/-- Information about the declaring node of one member of a polymorphic
function chain: its source location, whether it has a body, and whether
it was marked as a compiler builtin.  `none` stands for a builtin with no
AST node at all. -/
structure PolyNodeInfo where
  file : String
  line : Int
  has_statements : Bool
  is_builtin : Bool
  deriving DecidableEq

/-- One member of a polymorphic function chain (FunctionSymbol data
reachable through nextpoly): its scope, argument-signature encoding, and
declaring node. -/
structure PolyEntry where
  scope : Int
  argcodes : String
  node : Option PolyNodeInfo
  deriving DecidableEq

/-- Modelled from the spec: the symbol record of the external symbol
table (section 6).  `node` is the declaring node's source location;
`polyinfo` lists the polymorphic chain a function symbol heads (its own
entry first, then the symbols reachable through nextpoly); `readonly` is
the read-only mark consulted by the writeability check. -/
structure Symbol where
  name : String
  typespec : TypeSpec := {}
  symtype : SymType := .SymTypeLocal
  scope : Int := 0
  node : Option (String × Int) := none
  readonly : Bool := false
  argcodes : String := ""
  polyinfo : List PolyEntry := []
  deriving DecidableEq

/-- Modelled from the spec: the external symbol table collaborator with
find/clash/insert/scopeid (section 6).  Symbols are kept
innermost-first; find returns the first symbol of the name. -/
structure SymbolTable where
  scopeid : Int := 0
  syms : List Symbol := []
  deriving DecidableEq

def SymbolTable.find (st : SymbolTable) (name : String) : Option Symbol :=
  st.syms.find? (fun s => s.name = name)

/-- Modelled from the spec: clash returns the first symbol of that name
regardless of kind, for conflict detection. -/
def SymbolTable.clash (st : SymbolTable) (name : String) : Option Symbol :=
  st.find name

/-- Insertion stamps the symbol with the current scope id. -/
def SymbolTable.insert (st : SymbolTable) (s : Symbol) : SymbolTable :=
  { st with syms := { s with scope := st.scopeid } :: st.syms }

/-- One field of a struct specification. -/
structure FieldSpec where
  fname : String
  ftype : TypeSpec
  deriving DecidableEq

/-- Modelled from the spec: the struct specification lookup of the type
library — field count, field name and field type by index. -/
structure StructSpec where
  sname : String
  fields : List FieldSpec
  deriving DecidableEq

/-- Severities of the diagnostic sink. -/
inductive Severity where
  | errorSev
  | warningSev
  | infoSev
  | messageSev
  deriving DecidableEq

/-- One diagnostic: severity, source location, text. -/
structure Diag where
  sev : Severity
  file : String
  line : Int
  text : String
  deriving DecidableEq

/-- The ambient compiler state a node constructor reads: current source
file and line, the live symbol table, and the table of struct
specifications indexed by struct id. -/
structure OSLCompilerImpl where
  filename : String := ""
  lineno : Int := 0
  symtab : SymbolTable := {}
  structspecs : List StructSpec := []
  deriving DecidableEq

/-- The basename of a path, as OIIO::Filesystem::filename produces for
the "previous declaration was at file:line" diagnostics. -/
def filenamePart (s : String) : String :=
  (s.splitOn "/").getLastD s

/-- Per-declaration classification flags carried by variable-declaration
nodes (parameter / output / metadata / initializer-list). -/
structure DeclFlags where
  isparam : Bool := false
  isoutput : Bool := false
  ismetadata : Bool := false
  initlist : Bool := false
  is_builtin : Bool := false
  deriving DecidableEq

/-- The syntax-tree node: discriminant, operator code, owned children
(entries may be null, as in the C++ child vector), intrusive next-sibling
link, resolved type, lvalue flag, source location, and the per-kind
payload slots used by this file (literal value, name / field string,
declaration flags, attached symbol, synthesized component-index node). -/
inductive ASTNode where
  | mk (nodetype : NodeType) (op : Int)
      (children : List (Option ASTNode))
      (next : Option ASTNode)
      (typespec : TypeSpec)
      (is_lvalue : Bool)
      (sourcefile : String)
      (sourceline : Int)
      (lit : Option LitVal)
      (name : String)
      (flags : DeclFlags)
      (sym : Option Symbol)
      (compindex : Option ASTNode)

def ASTNode.nodetype : ASTNode → NodeType
  | .mk nt _ _ _ _ _ _ _ _ _ _ _ _ => nt

def ASTNode.op : ASTNode → Int
  | .mk _ o _ _ _ _ _ _ _ _ _ _ _ => o

def ASTNode.children : ASTNode → List (Option ASTNode)
  | .mk _ _ ch _ _ _ _ _ _ _ _ _ _ => ch

def ASTNode.next : ASTNode → Option ASTNode
  | .mk _ _ _ nx _ _ _ _ _ _ _ _ _ => nx

def ASTNode.typespec : ASTNode → TypeSpec
  | .mk _ _ _ _ ts _ _ _ _ _ _ _ _ => ts

def ASTNode.is_lvalue : ASTNode → Bool
  | .mk _ _ _ _ _ lv _ _ _ _ _ _ _ => lv

def ASTNode.sourcefile : ASTNode → String
  | .mk _ _ _ _ _ _ f _ _ _ _ _ _ => f

def ASTNode.sourceline : ASTNode → Int
  | .mk _ _ _ _ _ _ _ l _ _ _ _ _ => l

def ASTNode.lit : ASTNode → Option LitVal
  | .mk _ _ _ _ _ _ _ _ li _ _ _ _ => li

def ASTNode.name : ASTNode → String
  | .mk _ _ _ _ _ _ _ _ _ nm _ _ _ => nm

def ASTNode.flags : ASTNode → DeclFlags
  | .mk _ _ _ _ _ _ _ _ _ _ fl _ _ => fl

def ASTNode.sym : ASTNode → Option Symbol
  | .mk _ _ _ _ _ _ _ _ _ _ _ sy _ => sy

def ASTNode.compindex : ASTNode → Option ASTNode
  | .mk _ _ _ _ _ _ _ _ _ _ _ _ ci => ci

def ASTNode.withOp : ASTNode → Int → ASTNode
  | .mk nt _ ch nx ts lv f l li nm fl sy ci, o =>
    .mk nt o ch nx ts lv f l li nm fl sy ci

def ASTNode.withChildren : ASTNode → List (Option ASTNode) → ASTNode
  | .mk nt o _ nx ts lv f l li nm fl sy ci, ch =>
    .mk nt o ch nx ts lv f l li nm fl sy ci

def ASTNode.withNext : ASTNode → Option ASTNode → ASTNode
  | .mk nt o ch _ ts lv f l li nm fl sy ci, nx =>
    .mk nt o ch nx ts lv f l li nm fl sy ci

def ASTNode.withTypespec : ASTNode → TypeSpec → ASTNode
  | .mk nt o ch nx _ lv f l li nm fl sy ci, ts =>
    .mk nt o ch nx ts lv f l li nm fl sy ci

def ASTNode.withLvalue : ASTNode → Bool → ASTNode
  | .mk nt o ch nx ts _ f l li nm fl sy ci, lv =>
    .mk nt o ch nx ts lv f l li nm fl sy ci

def ASTNode.withSourceline : ASTNode → Int → ASTNode
  | .mk nt o ch nx ts lv f _ li nm fl sy ci, l =>
    .mk nt o ch nx ts lv f l li nm fl sy ci

def ASTNode.withName : ASTNode → String → ASTNode
  | .mk nt o ch nx ts lv f l li _ fl sy ci, nm =>
    .mk nt o ch nx ts lv f l li nm fl sy ci

def ASTNode.withFlags : ASTNode → DeclFlags → ASTNode
  | .mk nt o ch nx ts lv f l li nm _ sy ci, fl =>
    .mk nt o ch nx ts lv f l li nm fl sy ci

def ASTNode.withSym : ASTNode → Option Symbol → ASTNode
  | .mk nt o ch nx ts lv f l li nm fl _ ci, sy =>
    .mk nt o ch nx ts lv f l li nm fl sy ci

def ASTNode.withCompindex : ASTNode → Option ASTNode → ASTNode
  | .mk nt o ch nx ts lv f l li nm fl sy _, ci =>
    .mk nt o ch nx ts lv f l li nm fl sy ci

/-- Child accessor: child(i), null when absent. -/
def ASTNode.childOpt (n : ASTNode) (i : Nat) : Option ASTNode :=
  (n.children.getD i none)

def ASTNode.nchildren (n : ASTNode) : Nat := n.children.length

/-- The common ASTNode constructor behaviour: capture the ambient source
file and line, store the operator code, adopt the children, default type
UNKNOWN, not an lvalue, no next sibling. -/
def baseNode (nt : NodeType) (comp : OSLCompilerImpl) (op : Int)
    (children : List (Option ASTNode)) : ASTNode :=
  .mk nt op children none {} false comp.filename comp.lineno none "" {} none
    none

def ASTNode.withLit : ASTNode → Option LitVal → ASTNode
  | .mk nt o ch nx ts lv f l _ nm fl sy ci, li =>
    .mk nt o ch nx ts lv f l li nm fl sy ci

/-- Modelled from the spec: the ASTliteral int constructor (declared in a
header outside src/) — a literal node of type int carrying the value, as
constructed throughout ast.cpp. -/
def ASTliteral_int (comp : OSLCompilerImpl) (i : Int) : ASTNode :=
  ((baseNode .literal_node comp 0 []).withTypespec intTS).withLit
    (some (.intv i))

/-- Modelled from the spec: the ASTliteral float constructor — a literal
node of type float carrying the value. -/
def ASTliteral_float (comp : OSLCompilerImpl) (q : ℚ) : ASTNode :=
  ((baseNode .literal_node comp 0 []).withTypespec floatTS).withLit
    (some (.floatv q))

/-- ASTliteral::intval. -/
def ASTNode.intval (n : ASTNode) : Int :=
  match n.lit with
  | some (.intv i) => i
  | _ => 0

/-- ASTliteral::floatval. -/
def ASTNode.floatval (n : ASTNode) : ℚ :=
  match n.lit with
  | some (.floatv q) => q
  | _ => 0

/-- C++ signed division as in ast.cpp constant folding (`lv / rv`):
truncation toward zero. -/
def cppDiv (a b : Int) : Int := Int.tdiv a b

/-- C++ signed remainder (`lv % rv`): sign follows the dividend. -/
def cppMod (a b : Int) : Int := Int.tmod a b

/-- C++ `lv << rv` on the defined inputs (non-negative shift count,
no overflow): multiplication by a power of two.  C++ leaves the other
inputs undefined; the model extends by `Int.toNat` of the count. -/
def cppShl (a b : Int) : Int := a * 2 ^ b.toNat

/-- C++ `lv >> rv` as implemented on two's-complement targets
(arithmetic shift): floor division by a power of two. -/
def cppShr (a b : Int) : Int := Int.fdiv a (2 ^ b.toNat)

/-- The ASTbinary_expression constructor: a binary-expression node over
the two operands; unless the operator is logical and/or, a user
operator-overload function named from the operator word is looked up and,
when it resolves to a function symbol, retained on the node. -/
def ASTbinary_expression_ctor (comp : OSLCompilerImpl) (op : Operator)
    (left right : ASTNode) : ASTNode :=
  let base := baseNode .binary_expression_node comp op.code
    [some left, some right]
  if op ≠ .And ∧ op ≠ .Or then
    match comp.symtab.find ("__operator__" ++ op.opword ++ "__") with
    | some s => if s.symtype = .SymTypeFunction then base.withSym (some s)
                else base
    | none => base
  else base

/-- ASTbinary_expression::make, the folding entry point: if both operands
are literal nodes of int type (resp. float type), evaluate the listed
operators immediately and return a literal carrying the result — division
and modulo by zero fold to the literal 0 — discarding the operands;
otherwise construct an ordinary binary-expression node. -/
def ASTbinary_expression_make (comp : OSLCompilerImpl) (op : Operator)
    (left right : ASTNode) : ASTNode :=
  if left.nodetype = .literal_node ∧ right.nodetype = .literal_node then
    let cf : Option ASTNode :=
      if left.typespec.is_int && right.typespec.is_int then
        let lv := left.intval
        let rv := right.intval
        match op with
        | .Mul => some (ASTliteral_int comp (lv * rv))
        | .Div =>
          some (ASTliteral_int comp (if rv ≠ 0 then cppDiv lv rv else 0))
        | .Add => some (ASTliteral_int comp (lv + rv))
        | .Sub => some (ASTliteral_int comp (lv - rv))
        | .Mod =>
          some (ASTliteral_int comp (if rv ≠ 0 then cppMod lv rv else 0))
        | .Equal => some (ASTliteral_int comp (if lv = rv then 1 else 0))
        | .NotEqual => some (ASTliteral_int comp (if lv ≠ rv then 1 else 0))
        | .Greater => some (ASTliteral_int comp (if lv > rv then 1 else 0))
        | .Less => some (ASTliteral_int comp (if lv < rv then 1 else 0))
        | .GreaterEqual =>
          some (ASTliteral_int comp (if lv ≥ rv then 1 else 0))
        | .LessEqual => some (ASTliteral_int comp (if lv ≤ rv then 1 else 0))
        | .BitAnd => some (ASTliteral_int comp (Int.land lv rv))
        | .BitOr => some (ASTliteral_int comp (Int.lor lv rv))
        | .Xor => some (ASTliteral_int comp (Int.xor lv rv))
        | .ShiftLeft => some (ASTliteral_int comp (cppShl lv rv))
        | .ShiftRight => some (ASTliteral_int comp (cppShr lv rv))
        | _ => none
      else if left.typespec.is_float && right.typespec.is_float then
        let lv := left.floatval
        let rv := right.floatval
        match op with
        | .Mul => some (ASTliteral_float comp (lv * rv))
        | .Div =>
          some (ASTliteral_float comp (if rv ≠ 0 then lv / rv else 0))
        | .Add => some (ASTliteral_float comp (lv + rv))
        | .Sub => some (ASTliteral_float comp (lv - rv))
        | .Equal => some (ASTliteral_int comp (if lv = rv then 1 else 0))
        | .NotEqual => some (ASTliteral_int comp (if lv ≠ rv then 1 else 0))
        | .Greater => some (ASTliteral_int comp (if lv > rv then 1 else 0))
        | .Less => some (ASTliteral_int comp (if lv < rv then 1 else 0))
        | .GreaterEqual =>
          some (ASTliteral_int comp (if lv ≥ rv then 1 else 0))
        | .LessEqual => some (ASTliteral_int comp (if lv ≤ rv then 1 else 0))
        | _ => none
      else none
    match cf with
    | some n => n
    | none => ASTbinary_expression_ctor comp op left right
  else ASTbinary_expression_ctor comp op left right

/-- ASTNode::check_symbol_writeability: recurse through index and
struct-select wrappers to the underlying reference or declaration; a
read-only destination symbol draws the non-output-parameter warning and a
false result.  The warning is reported at the location of the node that
ran the check. -/
def check_symbol_writeability (file : String) (line : Int) :
    ASTNode → Bool × List Diag
  | .mk .index_node o (some v :: rest) nx ts lv f l li nm fl sy ci =>
    check_symbol_writeability file line v
  | .mk .structselect_node o (some v :: rest) nx ts lv f l li nm fl sy ci =>
    check_symbol_writeability file line v
  | n =>
    let dest : Option Symbol :=
      if n.nodetype = .variable_ref_node then n.sym
      else if n.nodetype = .variable_declaration_node then n.sym
      else none
    match dest with
    | some d =>
      if d.readonly then
        (false,
          [⟨.warningSev, file, line,
            "cannot write to non-output parameter \"" ++ d.name ++ "\""⟩])
      else (true, [])
    | none => (true, [])

/-- The ASTassign_expression constructor: a compound operator is
rejiggered at construction into plain assignment whose second child is a
fresh binary-expression node computing `lhs op rhs` through the plain
constructor; the writeability check then runs on the original target. -/
def ASTassign_expression_ctor (comp : OSLCompilerImpl) (op : Operator)
    (var expr : ASTNode) : ASTNode × List Diag :=
  let base := baseNode .assign_expression_node comp op.code
    [some var, some expr]
  let node :=
    if op ≠ .Assign then
      (base.withOp Operator.Assign.code).withChildren
        [some var, some (ASTbinary_expression_ctor comp op var expr)]
    else base
  (node, (check_symbol_writeability comp.filename comp.lineno var).2)

lemma binary_ctor_nodetype (comp : OSLCompilerImpl) (op : Operator)
    (l r : ASTNode) :
    (ASTbinary_expression_ctor comp op l r).nodetype
      = .binary_expression_node := by
  unfold ASTbinary_expression_ctor
  split_ifs
  · cases h : comp.symtab.find ("__operator__" ++ op.opword ++ "__") <;>
      simp [baseNode, ASTNode.withSym, ASTNode.nodetype] <;> split_ifs <;>
      simp [baseNode, ASTNode.withSym, ASTNode.nodetype]
  · simp [baseNode, ASTNode.nodetype]

lemma binary_ctor_children (comp : OSLCompilerImpl) (op : Operator)
    (l r : ASTNode) :
    (ASTbinary_expression_ctor comp op l r).children = [some l, some r] := by
  unfold ASTbinary_expression_ctor
  split_ifs
  · cases h : comp.symtab.find ("__operator__" ++ op.opword ++ "__") <;>
      simp [baseNode, ASTNode.withSym, ASTNode.children] <;> split_ifs <;>
      simp [baseNode, ASTNode.withSym, ASTNode.children]
  · simp [baseNode, ASTNode.children]

lemma binary_ctor_op (comp : OSLCompilerImpl) (op : Operator)
    (l r : ASTNode) :
    (ASTbinary_expression_ctor comp op l r).op = op.code := by
  unfold ASTbinary_expression_ctor
  split_ifs
  · cases h : comp.symtab.find ("__operator__" ++ op.opword ++ "__") <;>
      simp [baseNode, ASTNode.withSym, ASTNode.op] <;> split_ifs <;>
      simp [baseNode, ASTNode.withSym, ASTNode.op]
  · simp [baseNode, ASTNode.op]

lemma literal_int_nodetype (comp : OSLCompilerImpl) (v : Int) :
    (ASTliteral_int comp v).nodetype = .literal_node := rfl

/-- C1: for every pair of int literals and each of the sixteen folding
operators, the folding entry point returns a literal node whose value is
the mathematical result of the operator (comparisons yield 0/1, division
and modulo by zero yield 0, shifts are multiplication and floor division
by a power of two); no binary-expression node is materialized, the
result being a literal node. -/
theorem intlit_binary_fold (comp : OSLCompilerImpl) (a b : Int) :
    (ASTbinary_expression_make comp .Mul (ASTliteral_int comp a)
        (ASTliteral_int comp b) = ASTliteral_int comp (a * b))
  ∧ (ASTbinary_expression_make comp .Div (ASTliteral_int comp a)
        (ASTliteral_int comp b)
      = ASTliteral_int comp (if b ≠ 0 then Int.tdiv a b else 0))
  ∧ (ASTbinary_expression_make comp .Add (ASTliteral_int comp a)
        (ASTliteral_int comp b) = ASTliteral_int comp (a + b))
  ∧ (ASTbinary_expression_make comp .Sub (ASTliteral_int comp a)
        (ASTliteral_int comp b) = ASTliteral_int comp (a - b))
  ∧ (ASTbinary_expression_make comp .Mod (ASTliteral_int comp a)
        (ASTliteral_int comp b)
      = ASTliteral_int comp (if b ≠ 0 then Int.tmod a b else 0))
  ∧ (ASTbinary_expression_make comp .Equal (ASTliteral_int comp a)
        (ASTliteral_int comp b)
      = ASTliteral_int comp (if a = b then 1 else 0))
  ∧ (ASTbinary_expression_make comp .NotEqual (ASTliteral_int comp a)
        (ASTliteral_int comp b)
      = ASTliteral_int comp (if a ≠ b then 1 else 0))
  ∧ (ASTbinary_expression_make comp .Greater (ASTliteral_int comp a)
        (ASTliteral_int comp b)
      = ASTliteral_int comp (if a > b then 1 else 0))
  ∧ (ASTbinary_expression_make comp .GreaterEqual (ASTliteral_int comp a)
        (ASTliteral_int comp b)
      = ASTliteral_int comp (if a ≥ b then 1 else 0))
  ∧ (ASTbinary_expression_make comp .Less (ASTliteral_int comp a)
        (ASTliteral_int comp b)
      = ASTliteral_int comp (if a < b then 1 else 0))
  ∧ (ASTbinary_expression_make comp .LessEqual (ASTliteral_int comp a)
        (ASTliteral_int comp b)
      = ASTliteral_int comp (if a ≤ b then 1 else 0))
  ∧ (ASTbinary_expression_make comp .BitAnd (ASTliteral_int comp a)
        (ASTliteral_int comp b) = ASTliteral_int comp (Int.land a b))
  ∧ (ASTbinary_expression_make comp .BitOr (ASTliteral_int comp a)
        (ASTliteral_int comp b) = ASTliteral_int comp (Int.lor a b))
  ∧ (ASTbinary_expression_make comp .Xor (ASTliteral_int comp a)
        (ASTliteral_int comp b) = ASTliteral_int comp (Int.xor a b))
  ∧ (ASTbinary_expression_make comp .ShiftLeft (ASTliteral_int comp a)
        (ASTliteral_int comp b) = ASTliteral_int comp (a * 2 ^ b.toNat))
  ∧ (ASTbinary_expression_make comp .ShiftRight (ASTliteral_int comp a)
        (ASTliteral_int comp b)
      = ASTliteral_int comp (Int.fdiv a (2 ^ b.toNat)))
  ∧ (∀ v : Int, (ASTliteral_int comp v).nodetype = .literal_node) :=
  ⟨rfl, rfl, rfl, rfl, rfl, rfl, rfl, rfl, rfl, rfl, rfl, rfl, rfl, rfl,
    rfl, rfl, fun v => rfl⟩

/-- C2: for every pair of float literals the folding entry point folds
multiply, divide (division by zero folding to the literal 0), add,
subtract and the six comparisons (producing int literals 0/1), while for
the bitwise and shift operators it never folds: it returns the ordinary
binary-expression node whose children are the two literal operands. -/
theorem floatlit_binary_fold (comp : OSLCompilerImpl) (x y : ℚ) :
    (ASTbinary_expression_make comp .Mul (ASTliteral_float comp x)
        (ASTliteral_float comp y) = ASTliteral_float comp (x * y))
  ∧ (ASTbinary_expression_make comp .Div (ASTliteral_float comp x)
        (ASTliteral_float comp y)
      = ASTliteral_float comp (if y ≠ 0 then x / y else 0))
  ∧ (ASTbinary_expression_make comp .Add (ASTliteral_float comp x)
        (ASTliteral_float comp y) = ASTliteral_float comp (x + y))
  ∧ (ASTbinary_expression_make comp .Sub (ASTliteral_float comp x)
        (ASTliteral_float comp y) = ASTliteral_float comp (x - y))
  ∧ (ASTbinary_expression_make comp .Equal (ASTliteral_float comp x)
        (ASTliteral_float comp y)
      = ASTliteral_int comp (if x = y then 1 else 0))
  ∧ (ASTbinary_expression_make comp .NotEqual (ASTliteral_float comp x)
        (ASTliteral_float comp y)
      = ASTliteral_int comp (if x ≠ y then 1 else 0))
  ∧ (ASTbinary_expression_make comp .Greater (ASTliteral_float comp x)
        (ASTliteral_float comp y)
      = ASTliteral_int comp (if x > y then 1 else 0))
  ∧ (ASTbinary_expression_make comp .GreaterEqual (ASTliteral_float comp x)
        (ASTliteral_float comp y)
      = ASTliteral_int comp (if x ≥ y then 1 else 0))
  ∧ (ASTbinary_expression_make comp .Less (ASTliteral_float comp x)
        (ASTliteral_float comp y)
      = ASTliteral_int comp (if x < y then 1 else 0))
  ∧ (ASTbinary_expression_make comp .LessEqual (ASTliteral_float comp x)
        (ASTliteral_float comp y)
      = ASTliteral_int comp (if x ≤ y then 1 else 0))
  ∧ (ASTbinary_expression_make comp .BitAnd (ASTliteral_float comp x)
        (ASTliteral_float comp y)
      = ASTbinary_expression_ctor comp .BitAnd (ASTliteral_float comp x)
          (ASTliteral_float comp y))
  ∧ (ASTbinary_expression_make comp .BitOr (ASTliteral_float comp x)
        (ASTliteral_float comp y)
      = ASTbinary_expression_ctor comp .BitOr (ASTliteral_float comp x)
          (ASTliteral_float comp y))
  ∧ (ASTbinary_expression_make comp .Xor (ASTliteral_float comp x)
        (ASTliteral_float comp y)
      = ASTbinary_expression_ctor comp .Xor (ASTliteral_float comp x)
          (ASTliteral_float comp y))
  ∧ (ASTbinary_expression_make comp .ShiftLeft (ASTliteral_float comp x)
        (ASTliteral_float comp y)
      = ASTbinary_expression_ctor comp .ShiftLeft (ASTliteral_float comp x)
          (ASTliteral_float comp y))
  ∧ (ASTbinary_expression_make comp .ShiftRight (ASTliteral_float comp x)
        (ASTliteral_float comp y)
      = ASTbinary_expression_ctor comp .ShiftRight (ASTliteral_float comp x)
          (ASTliteral_float comp y))
  ∧ (∀ (op : Operator) (l r : ASTNode),
      (ASTbinary_expression_ctor comp op l r).nodetype
          = .binary_expression_node
        ∧ (ASTbinary_expression_ctor comp op l r).children
          = [some l, some r]) :=
  ⟨rfl, rfl, rfl, rfl, rfl, rfl, rfl, rfl, rfl, rfl, rfl, rfl, rfl, rfl,
    rfl, fun op l r => ⟨binary_ctor_nodetype comp op l r,
      binary_ctor_children comp op l r⟩⟩

/-- C3: an assignment node built with a compound operator is desugared at
construction: the node's operator code becomes plain assignment, its
second child is a binary-expression node (built by the plain constructor)
whose operator is the compound operator's base operator and whose
operands are the original left- and right-hand expressions, and the
writeability check runs on the original target expression. -/
theorem compound_assign_desugar (comp : OSLCompilerImpl) (op : Operator)
    (var expr : ASTNode)
    (h : op ∈ [Operator.Mul, .Div, .Add, .Sub, .BitAnd, .BitOr, .Xor,
      .ShiftLeft, .ShiftRight]) :
    ((ASTassign_expression_ctor comp op var expr).1.op
        = Operator.Assign.code)
  ∧ ((ASTassign_expression_ctor comp op var expr).1.nodetype
        = .assign_expression_node)
  ∧ ((ASTassign_expression_ctor comp op var expr).1.children
        = [some var, some (ASTbinary_expression_ctor comp op var expr)])
  ∧ ((ASTbinary_expression_ctor comp op var expr).op = op.code)
  ∧ ((ASTbinary_expression_ctor comp op var expr).nodetype
        = .binary_expression_node)
  ∧ ((ASTbinary_expression_ctor comp op var expr).children
        = [some var, some expr])
  ∧ ((ASTassign_expression_ctor comp op var expr).2
        = (check_symbol_writeability comp.filename comp.lineno var).2) := by
  fin_cases h <;>
    exact ⟨rfl, rfl, rfl, binary_ctor_op comp _ var expr,
      binary_ctor_nodetype comp _ var expr,
      binary_ctor_children comp _ var expr, rfl⟩

/-- Witness for C3 at a concrete compound assignment. -/
theorem compound_assign_desugar_witness :
    ((ASTassign_expression_ctor {} .Add (ASTliteral_int {} 1)
        (ASTliteral_int {} 2)).1.op = Operator.Assign.code) :=
  (compound_assign_desugar {} .Add (ASTliteral_int {} 1)
    (ASTliteral_int {} 2) (by decide)).1

lemma assign_ctor_children_compound (comp : OSLCompilerImpl) (op : Operator)
    (var expr : ASTNode) (h : op ≠ .Assign) :
    (ASTassign_expression_ctor comp op var expr).1.children
      = [some var, some (ASTbinary_expression_ctor comp op var expr)] := by
  simp only [ASTassign_expression_ctor]
  rw [if_pos h]
  rfl

/-- C10: the right-hand side of a desugared compound assignment is built
through the plain binary-expression constructor, never the folding entry
point: even with two int (or float) literal operands the second child is
a binary-expression node, although the folding entry point would have
produced a pre-folded literal for the same operands. -/
theorem compound_assign_rhs_not_folded (comp : OSLCompilerImpl)
    (op : Operator) (a b : Int)
    (h : op ∈ [Operator.Mul, .Div, .Add, .Sub, .BitAnd, .BitOr, .Xor,
      .ShiftLeft, .ShiftRight]) :
    (((ASTassign_expression_ctor comp op (ASTliteral_int comp a)
          (ASTliteral_int comp b)).1.childOpt 1).map ASTNode.nodetype
        = some .binary_expression_node)
  ∧ (((ASTassign_expression_ctor comp op (ASTliteral_int comp a)
          (ASTliteral_int comp b)).1.childOpt 1).map ASTNode.nodetype
        ≠ some .literal_node)
  ∧ ((ASTbinary_expression_make comp op (ASTliteral_int comp a)
        (ASTliteral_int comp b)).nodetype = .literal_node)
  ∧ (∀ x y : ℚ,
      ((ASTassign_expression_ctor comp op (ASTliteral_float comp x)
          (ASTliteral_float comp y)).1.childOpt 1).map ASTNode.nodetype
        = some .binary_expression_node) := by
  have hne : op ≠ .Assign := by
    intro hc
    subst hc
    simp at h
  have key : ∀ (l r : ASTNode),
      ((ASTassign_expression_ctor comp op l r).1.childOpt 1).map
          ASTNode.nodetype = some .binary_expression_node := by
    intro l r
    simp [ASTNode.childOpt, assign_ctor_children_compound comp op l r hne,
      binary_ctor_nodetype]
  refine ⟨key _ _, ?_, ?_, fun x y => key _ _⟩
  · rw [key _ _]
    intro hcontra
    cases hcontra
  · fin_cases h <;> rfl

/-- Witness for C10. -/
theorem compound_assign_rhs_not_folded_witness :
    (((ASTassign_expression_ctor {} .Mul (ASTliteral_int {} 3)
          (ASTliteral_int {} 5)).1.childOpt 1).map ASTNode.nodetype
        = some .binary_expression_node) :=
  (compound_assign_rhs_not_folded {} .Mul 3 5 (by decide)).1

/-- The sibling link of a node is smaller than the node, for the
termination of the chain walks below. -/
lemma sizeOf_chain_next (nt : NodeType) (o : Int)
    (ch : List (Option ASTNode)) (nx : Option ASTNode) (ts : TypeSpec)
    (lv : Bool) (f : String) (l : Int) (li : Option LitVal) (nm : String)
    (fl : DeclFlags) (sy : Option Symbol) (ci : Option ASTNode) :
    sizeOf nx < sizeOf (some (ASTNode.mk nt o ch nx ts lv f l li nm fl
      sy ci)) := by
  calc sizeOf nx
      ≤ 1 + sizeOf nt + sizeOf o + sizeOf ch + sizeOf nx :=
        Nat.le_add_left _ _
    _ ≤ 1 + sizeOf nt + sizeOf o + sizeOf ch + sizeOf nx + sizeOf ts :=
        Nat.le_add_right _ _
    _ ≤ 1 + sizeOf nt + sizeOf o + sizeOf ch + sizeOf nx + sizeOf ts
        + sizeOf lv := Nat.le_add_right _ _
    _ ≤ 1 + sizeOf nt + sizeOf o + sizeOf ch + sizeOf nx + sizeOf ts
        + sizeOf lv + sizeOf f := Nat.le_add_right _ _
    _ ≤ 1 + sizeOf nt + sizeOf o + sizeOf ch + sizeOf nx + sizeOf ts
        + sizeOf lv + sizeOf f + sizeOf l := Nat.le_add_right _ _
    _ ≤ 1 + sizeOf nt + sizeOf o + sizeOf ch + sizeOf nx + sizeOf ts
        + sizeOf lv + sizeOf f + sizeOf l + sizeOf li :=
        Nat.le_add_right _ _
    _ ≤ 1 + sizeOf nt + sizeOf o + sizeOf ch + sizeOf nx + sizeOf ts
        + sizeOf lv + sizeOf f + sizeOf l + sizeOf li + sizeOf nm :=
        Nat.le_add_right _ _
    _ ≤ 1 + sizeOf nt + sizeOf o + sizeOf ch + sizeOf nx + sizeOf ts
        + sizeOf lv + sizeOf f + sizeOf l + sizeOf li + sizeOf nm
        + sizeOf fl := Nat.le_add_right _ _
    _ ≤ 1 + sizeOf nt + sizeOf o + sizeOf ch + sizeOf nx + sizeOf ts
        + sizeOf lv + sizeOf f + sizeOf l + sizeOf li + sizeOf nm
        + sizeOf fl + sizeOf sy := Nat.le_add_right _ _
    _ ≤ 1 + sizeOf nt + sizeOf o + sizeOf ch + sizeOf nx + sizeOf ts
        + sizeOf lv + sizeOf f + sizeOf l + sizeOf li + sizeOf nm
        + sizeOf fl + sizeOf sy + sizeOf ci := Nat.le_add_right _ _
    _ < 1 + (1 + sizeOf nt + sizeOf o + sizeOf ch + sizeOf nx + sizeOf ts
        + sizeOf lv + sizeOf f + sizeOf l + sizeOf li + sizeOf nm
        + sizeOf fl + sizeOf sy + sizeOf ci) :=
        Nat.lt_one_add_iff.mpr (Nat.le_refl _)
    _ = sizeOf (some (ASTNode.mk nt o ch nx ts lv f l li nm fl sy ci)) :=
        by rw [Option.some.sizeOf_spec, ASTNode.mk.sizeOf_spec]

/-- The sibling chain as a list, in chain order (nodes keep their
links). -/
def chainToList : Option ASTNode → List ASTNode
  | none => []
  | some (.mk nt o ch nx ts lv f l li nm fl sy ci) =>
    (ASTNode.mk nt o ch nx ts lv f l li nm fl sy ci) :: chainToList nx
  decreasing_by exact sizeOf_chain_next nt o ch nx ts lv f l li nm fl sy ci

/-- The number of nodes on a sibling chain. -/
def chainLength (c : Option ASTNode) : Nat := (chainToList c).length

/-- The destructor's sibling-chain teardown loop (ASTNode::~ASTNode),
acting on the head's `m_next` chain: each iteration takes the first
remaining sibling, relinks `m_next` past it, resets the taken node's own
next link, and only then releases it.  The function returns the released
nodes in release order, each in the state (next cleared) it is released
in; one list entry corresponds to one loop iteration. -/
def destructor_release_order : Option ASTNode → List ASTNode
  | none => []
  | some (.mk nt o ch nx ts lv f l li nm fl sy ci) =>
    (ASTNode.mk nt o ch none ts lv f l li nm fl sy ci)
      :: destructor_release_order nx
  decreasing_by exact sizeOf_chain_next nt o ch nx ts lv f l li nm fl sy ci

/-- A sibling chain of n literal nodes. -/
def mkChain (comp : OSLCompilerImpl) : Nat → Option ASTNode
  | 0 => none
  | n + 1 => some ((ASTliteral_int comp 0).withNext (mkChain comp n))

lemma chainLength_mkChain (comp : OSLCompilerImpl) :
    ∀ n, chainLength (mkChain comp n) = n := by
  intro n
  induction n with
  | zero => simp [mkChain, chainLength, chainToList]
  | succ k ih =>
    simp only [chainLength] at ih
    simp only [mkChain, ASTliteral_int, baseNode, ASTNode.withTypespec,
      ASTNode.withLit, ASTNode.withNext, chainLength, chainToList,
      List.length_cons, ih]

lemma release_order_length :
    ∀ c : Option ASTNode,
      (destructor_release_order c).length = chainLength c
  | none => by simp only [destructor_release_order, chainLength, chainToList]
  | some (.mk nt o ch nx ts lv f l li nm fl sy ci) => by
    simp only [destructor_release_order, chainLength, chainToList,
      List.length_cons, release_order_length nx]
  decreasing_by exact sizeOf_chain_next nt o ch nx ts lv f l li nm fl sy ci

lemma release_order_next_none :
    ∀ c : Option ASTNode, ∀ m ∈ destructor_release_order c, m.next = none
  | some (.mk nt o ch nx ts lv f l li nm fl sy ci) => by
    intro m hm
    simp only [destructor_release_order] at hm
    rcases List.mem_cons.mp hm with h | h
    · subst h; rfl
    · exact release_order_next_none nx m h
  | none => by
    intro m hm
    simp only [destructor_release_order] at hm
    cases hm
  decreasing_by exact sizeOf_chain_next nt o ch nx ts lv f l li nm fl sy ci

/-- C8: the sibling-chain teardown is iterative: the destructor's loop
releases exactly one node per iteration (release-order length equals the
chain length, for every chain — in particular one of 100000 nodes), and
every node is unlinked before release (its next-sibling link is cleared),
so releasing it can never recurse back into the remaining chain. -/
theorem sibling_chain_teardown :
    (∀ c : Option ASTNode,
        (destructor_release_order c).length = chainLength c
      ∧ (∀ m ∈ destructor_release_order c, m.next = none))
  ∧ chainLength (mkChain {} 100000) = 100000
  ∧ (destructor_release_order (mkChain {} 100000)).length = 100000 := by
  refine ⟨fun c => ⟨release_order_length c, release_order_next_none c⟩,
    chainLength_mkChain {} 100000, ?_⟩
  rw [release_order_length, chainLength_mkChain]

/-- ASTvariable_declaration::init(): the first child. -/
def ASTNode.init (n : ASTNode) : Option ASTNode := n.childOpt 0

/-- The two per-formal checks of the ASTshader_declaration constructor: a
formal without a default initializer draws an error naming it, an output
formal of unsized-array type draws a distinct error naming it; both are
reported at the formal's own location. -/
def shaderParamCheck (v : ASTNode) : List Diag :=
  (if v.init.isNone then
    [⟨.errorSev, v.sourcefile, v.sourceline,
      "shader parameter \x27" ++ v.name
        ++ "\x27 requires a default initializer"⟩]
  else [])
  ++ (if v.flags.isoutput && v.typespec.is_unsized_array then
    [⟨.errorSev, v.sourcefile, v.sourceline,
      "shader output parameter \x27" ++ v.name
        ++ "\x27 can\x27t be unsized array"⟩]
  else [])

def shaderParamDiags : List ASTNode → List Diag
  | [] => []
  | v :: rest => shaderParamCheck v ++ shaderParamDiags rest

/-- The ASTshader_declaration constructor: a shader-declaration node over
(metadata, formals, statements) carrying the shader type as operator
code and the shader name, double-checking the formal-parameter
requirements. -/
def ASTshader_declaration_ctor (comp : OSLCompilerImpl) (stype : Int)
    (name : String) (form stmts meta : Option ASTNode) :
    ASTNode × List Diag :=
  ((baseNode .shader_declaration_node comp stype
      [meta, form, stmts]).withName name,
    shaderParamDiags (chainToList form))

/-- C7: constructing a shader declaration reports, for every formal
without a default initializer, an error containing that formal's name;
for every output formal of unsized-array type, a distinct error naming
it; and reports neither error when all formals carry initializers and no
output formal is an unsized array. -/
theorem shader_param_errors (comp : OSLCompilerImpl) (stype : Int)
    (name : String) (form stmts meta : Option ASTNode) :
    (∀ v ∈ chainToList form, v.init = none →
      (⟨.errorSev, v.sourcefile, v.sourceline,
        "shader parameter \x27" ++ v.name
          ++ "\x27 requires a default initializer"⟩ : Diag)
        ∈ (ASTshader_declaration_ctor comp stype name form stmts meta).2)
  ∧ (∀ v ∈ chainToList form, v.flags.isoutput = true →
      v.typespec.is_unsized_array = true →
      (⟨.errorSev, v.sourcefile, v.sourceline,
        "shader output parameter \x27" ++ v.name
          ++ "\x27 can\x27t be unsized array"⟩ : Diag)
        ∈ (ASTshader_declaration_ctor comp stype name form stmts meta).2)
  ∧ ((∀ v ∈ chainToList form,
        (v.init).isSome
        ∧ ¬(v.flags.isoutput ∧ v.typespec.is_unsized_array)) →
      (ASTshader_declaration_ctor comp stype name form stmts meta).2
        = []) := by
  have key : ∀ l : List ASTNode,
      (∀ v ∈ l, v.init = none →
        (⟨.errorSev, v.sourcefile, v.sourceline,
          "shader parameter \x27" ++ v.name
            ++ "\x27 requires a default initializer"⟩ : Diag)
          ∈ shaderParamDiags l)
    ∧ (∀ v ∈ l, v.flags.isoutput = true →
        v.typespec.is_unsized_array = true →
        (⟨.errorSev, v.sourcefile, v.sourceline,
          "shader output parameter \x27" ++ v.name
            ++ "\x27 can\x27t be unsized array"⟩ : Diag)
          ∈ shaderParamDiags l)
    ∧ ((∀ v ∈ l, (v.init).isSome
          ∧ ¬(v.flags.isoutput ∧ v.typespec.is_unsized_array)) →
        shaderParamDiags l = []) := by
    intro l
    induction l with
    | nil =>
      exact ⟨fun v hv => absurd hv (List.not_mem_nil v),
        fun v hv => absurd hv (List.not_mem_nil v), fun _ => rfl⟩
    | cons hd tl ih =>
      refine ⟨?_, ?_, ?_⟩
      · intro v hv hinit
        rcases List.mem_cons.mp hv with h | h
        · subst h
          simp [shaderParamDiags, shaderParamCheck, hinit]
        · exact List.mem_append_right _ (ih.1 v h hinit)
      · intro v hv hout hunsz
        rcases List.mem_cons.mp hv with h | h
        · subst h
          simp [shaderParamDiags, shaderParamCheck, hout, hunsz]
        · exact List.mem_append_right _ (ih.2.1 v h hout hunsz)
      · intro hall
        have hd_ok := hall hd (List.mem_cons_self hd tl)
        have tl_ok : shaderParamDiags tl = [] :=
          ih.2.2 (fun v hv => hall v (List.mem_cons_of_mem hd hv))
        obtain ⟨a, ha⟩ := Option.isSome_iff_exists.mp hd_ok.1
        have h2 : ¬(hd.flags.isoutput && hd.typespec.is_unsized_array)
            = true := by
          intro hc
          exact hd_ok.2 ⟨(Bool.and_eq_true _ _).mp hc |>.1,
            (Bool.and_eq_true _ _).mp hc |>.2⟩
        simp [shaderParamDiags, shaderParamCheck, ha, h2, tl_ok]
  exact ⟨key (chainToList form) |>.1, key (chainToList form) |>.2.1,
    key (chainToList form) |>.2.2⟩

/-- Witness for C7: a formal without an initializer draws the error. -/
theorem shader_param_errors_witness :
    (⟨.errorSev, "", 0,
      "shader parameter \x27p\x27 requires a default initializer"⟩ : Diag)
      ∈ (ASTshader_declaration_ctor {} 0 "s"
          (some ((baseNode .variable_declaration_node {} 0
            [none, none]).withName "p")) none none).2 :=
  (shader_param_errors {} 0 "s"
      (some ((baseNode .variable_declaration_node {} 0
        [none, none]).withName "p")) none none).1
    ((baseNode .variable_declaration_node {} 0 [none, none]).withName "p")
    (by simp [chainToList, baseNode, ASTNode.withName]) rfl

/-- The redeclaration diagnostic text: the clashing name, and, when the
previous declaration has a node, its basename:line location. -/
def redeclMsg (name : String) (prev : Option (String × Int)) : String :=
  ("\"" ++ name ++ "\" already declared in this scope")
    ++ (match prev with
        | some (pf, pl) =>
          ("\n\t\tprevious declaration was at " ++ filenamePart pf)
            ++ (":" ++ toString pl)
        | none => "")

/-- The reserved-prefix diagnostic text. -/
def underscoresMsg (name : String) : String :=
  "\"" ++ name ++ "\" : s\x6frry, can\x27t start with three underscores"

/-- A record of one call to the external struct-field materialization
collaborator (add_struct_fields). -/
structure StructFieldsCall where
  structid : Int
  basename : String
  symtype : SymType
  arraylen : Int
  deriving DecidableEq

/-- Everything the ASTvariable_declaration constructor produces: the
node, the symbol table afterwards, the diagnostics, and the struct-field
materialization request if any. -/
structure VarDeclResult where
  node : ASTNode
  symtab : SymbolTable
  diags : List Diag
  fieldsCall : Option StructFieldsCall

/-- The ASTvariable_declaration constructor: substitute the
declaration-start line if hinted; report a clash with an existing
non-metadata symbol of the same name (with the previous declaration's
location when it has a node), as a warning when the clashing symbol is a
scope-0 function masked by a parameter and as an error otherwise; reject
reserved names; classify the symbol (parameter / output parameter /
local, with the debug-only local-to-temp quirk); create the symbol and
insert it into the table unless this is a metadata declaration (metadata
symbols are owned by the node instead); and request struct-field
materialization for structure types.  The early initializer-list
typecheck is carried out by the external typecheck phase and is not part
of this model. -/
def ASTvariable_declaration_ctor (comp : OSLCompilerImpl) (type : TypeSpec)
    (name : String) (init : Option ASTNode)
    (isparam ismeta isoutput initlist : Bool)
    (sourceline_start : Int) : VarDeclResult :=
  let line := if sourceline_start ≥ 0 then sourceline_start else comp.lineno
  let clashDiags : List Diag :=
    match comp.symtab.clash name with
    | some f =>
      if ismeta then []
      else
        let e := redeclMsg name f.node
        if f.scope = 0 ∧ f.symtype = .SymTypeFunction ∧ isparam then
          [⟨.warningSev, comp.filename, line, e⟩]
        else
          [⟨.errorSev, comp.filename, line, e⟩]
    | none => []
  let underscoreDiags : List Diag :=
    if name.startsWith "___" then
      [⟨.errorSev, comp.filename, line, underscoresMsg name⟩]
    else []
  let symtype0 : SymType :=
    if isparam then (if isoutput then .SymTypeOutputParam else .SymTypeParam)
    else .SymTypeLocal
  let symtype : SymType :=
    if symtype0 = .SymTypeLocal ∧ name.startsWith "__debug_tmp__" then
      .SymTypeTemp
    else symtype0
  let sym : Symbol :=
    { name := name, typespec := type, symtype := symtype,
      node := some (comp.filename, line) }
  let symtab := if ismeta then comp.symtab else comp.symtab.insert sym
  let node :=
    (((((baseNode .variable_declaration_node comp 0
      [init, none]).withName name).withTypespec type).withSourceline
        line).withFlags
      { isparam := isparam, isoutput := isoutput, ismetadata := ismeta,
        initlist := initlist }).withSym (some sym)
  let fieldsCall : Option StructFieldsCall :=
    if type.is_structure || type.is_structure_array then
      some { structid := type.structure_id, basename := name,
             symtype := symtype,
             arraylen := if type.is_unsized_array then -1
                         else type.arraylength }
    else none
  { node := node, symtab := symtab,
    diags := clashDiags ++ underscoreDiags, fieldsCall := fieldsCall }

lemma infix_data_append_right (a b : String) (l : List Char)
    (h : l <:+: a.data) : l <:+: (a ++ b).data := by
  obtain ⟨s, t, hst⟩ := h
  exact ⟨s, t ++ b.data, by
    rw [String.data_append, ← hst]
    simp [List.append_assoc]⟩

lemma infix_data_append_left (a b : String) (l : List Char)
    (h : l <:+: b.data) : l <:+: (a ++ b).data := by
  obtain ⟨s, t, hst⟩ := h
  exact ⟨a.data ++ s, t, by
    rw [String.data_append, ← hst]
    simp [List.append_assoc]⟩

lemma redeclMsg_parts (name pf : String) (pl : Int) :
    ((filenamePart pf).data <:+: (redeclMsg name (some (pf, pl))).data)
  ∧ ((toString pl).data <:+: (redeclMsg name (some (pf, pl))).data) := by
  constructor
  · exact infix_data_append_left _ _ _
      (infix_data_append_right _ _ _
        (infix_data_append_left "\n\t\tprevious declaration was at "
          (filenamePart pf) _ (List.infix_refl _)))
  · exact infix_data_append_left _ _ _
      (infix_data_append_left _ _ _
        (infix_data_append_left ":" (toString pl) _ (List.infix_refl _)))

/-- C4: constructing a non-metadata variable declaration whose name
already carries a symbol in scope reports a diagnostic whose text
includes the previous declaration's file (basename) and line; it is a
hard error, except that a scope-0 function symbol shadowed by a
parameter draws a warning carrying the same message. -/
theorem vardecl_redeclaration_diag (comp : OSLCompilerImpl)
    (type : TypeSpec) (name : String) (init : Option ASTNode)
    (isparam isoutput initlist : Bool) (sls : Int) (f : Symbol)
    (pf : String) (pl : Int)
    (hclash : comp.symtab.clash name = some f)
    (hnode : f.node = some (pf, pl))
    (hname : name.startsWith "___" = false) :
    (ASTvariable_declaration_ctor comp type name init isparam false isoutput
        initlist sls).diags
      = [⟨if f.scope = 0 ∧ f.symtype = .SymTypeFunction ∧ isparam then
            .warningSev
          else .errorSev,
          comp.filename,
          if sls ≥ 0 then sls else comp.lineno,
          redeclMsg name (some (pf, pl))⟩]
  ∧ ((filenamePart pf).data <:+: (redeclMsg name (some (pf, pl))).data)
  ∧ ((toString pl).data <:+: (redeclMsg name (some (pf, pl))).data) := by
  refine ⟨?_, (redeclMsg_parts name pf pl).1, (redeclMsg_parts name pf pl).2⟩
  simp only [ASTvariable_declaration_ctor, hclash, hnode, hname,
    Bool.false_eq_true, if_false, List.append_nil]
  split_ifs <;> rfl

/-- Witness for C4: a clash with a previously declared local draws the
error with the previous location in the message. -/
theorem vardecl_redeclaration_diag_witness :
    (ASTvariable_declaration_ctor
        { filename := "b.osl", lineno := 9,
          symtab := { scopeid := 1,
                      syms := [{ name := "x",
                                 symtype := .SymTypeLocal,
                                 scope := 1,
                                 node := some ("dir/a.osl", 4) }] } }
        intTS "x" none false false false false (-1)).diags
      = [⟨.errorSev, "b.osl", 9, redeclMsg "x" (some ("dir/a.osl", 4))⟩] := by
  have h := vardecl_redeclaration_diag
    { filename := "b.osl", lineno := 9,
      symtab := { scopeid := 1,
                  syms := [{ name := "x",
                             symtype := .SymTypeLocal,
                             scope := 1,
                             node := some ("dir/a.osl", 4) }] } }
    intTS "x" none false false false (-1)
    { name := "x", symtype := .SymTypeLocal, scope := 1,
      node := some ("dir/a.osl", 4) }
    "dir/a.osl" 4 rfl rfl rfl
  simpa using h.1

/-- The fixed base/arity type computation of the ASTindex constructor
(the if-cascade over the base type after the flatten rewrite): one index
dereferences an array to its element type or a non-closure triple to
float; two indices a matrix or an array of triples to float; three an
array of matrices to float; everything else stays UNKNOWN. -/
def indexTypeOf (base : TypeSpec) (has2 has3 : Bool) : TypeSpec :=
  if !has2 then
    if base.is_array then base.elementtype
    else if !base.is_closure && base.is_triple then floatTS
    else {}
  else if !has3 then
    if base.is_matrix then floatTS
    else if base.is_array && base.elementtype.is_triple then floatTS
    else {}
  else
    if base.is_array && base.elementtype.is_matrix then floatTS
    else {}

/-- The ASTindex constructor: adopt the base expression and the supplied
1–3 index expressions; when a single-index access has a two-child index
node as its base (the `array[i].component` pattern), flatten into one
three-child index node, discarding the intermediate node; then compute
the resolved type by the fixed base/arity table (indexTypeOf), reporting
an error and leaving the type unknown when no table row applies. -/
def ASTindex_ctor (comp : OSLCompilerImpl) (expr index : ASTNode)
    (index2 index3 : Option ASTNode) : ASTNode × List Diag :=
  let flat : Option (ASTNode × ASTNode) :=
    if index2.isNone ∧ expr.nodetype = .index_node ∧ expr.nchildren = 2 then
      match expr.children with
      | [some e0, some e1] => some (e0, e1)
      | _ => none
    else none
  let parts : ASTNode × Option ASTNode × Option ASTNode
      × List (Option ASTNode) :=
    match flat with
    | some (e0, e1) => (e0, some index, index3, [some e0, some e1, some index])
    | none =>
      (expr, index2, index3,
        [some expr, some index]
          ++ (match index2 with | some i2 => [some i2] | none => [])
          ++ (match index3 with | some i3 => [some i3] | none => []))
  let ts : TypeSpec :=
    indexTypeOf parts.1.typespec parts.2.1.isSome parts.2.2.1.isSome
  let diags : List Diag :=
    if ts.is_unknown then
      [⟨.errorSev, comp.filename, comp.lineno,
        "indexing into non-array or non-component type"⟩]
    else []
  ((baseNode .index_node comp 0 parts.2.2.2).withTypespec ts, diags)

/-- The index-result-type table exactly as the specification states it:
array with one index gives the element type; non-closure triple with one
index, matrix with two, array of triples with two, and array of matrices
with three give scalar float; anything else is unresolved. -/
def specIndexType (base : TypeSpec) (nindices : Nat) : TypeSpec :=
  if nindices = 1 ∧ base.is_array then base.elementtype
  else if nindices = 1 ∧ base.is_triple ∧ ¬base.is_closure then floatTS
  else if nindices = 2 ∧ base.is_matrix then floatTS
  else if nindices = 2 ∧ base.is_array ∧ base.elementtype.is_triple then
    floatTS
  else if nindices = 3 ∧ base.is_array ∧ base.elementtype.is_matrix then
    floatTS
  else {}

lemma ASTindex_ctor_typespec_no_flat (comp : OSLCompilerImpl)
    (expr index : ASTNode) (index2 index3 : Option ASTNode)
    (hne : expr.nodetype ≠ .index_node) :
    (ASTindex_ctor comp expr index index2 index3).1.typespec
      = indexTypeOf expr.typespec index2.isSome index3.isSome := by
  have hc : ¬(index2.isNone = true ∧ expr.nodetype = .index_node
      ∧ expr.nchildren = 2) := fun h => hne h.2.1
  simp only [ASTindex_ctor]
  rw [if_neg hc]
  rfl

lemma ASTindex_ctor_diags_no_flat (comp : OSLCompilerImpl)
    (expr index : ASTNode) (index2 index3 : Option ASTNode)
    (hne : expr.nodetype ≠ .index_node) :
    (ASTindex_ctor comp expr index index2 index3).2
      = if (indexTypeOf expr.typespec index2.isSome
            index3.isSome).is_unknown then
          [⟨.errorSev, comp.filename, comp.lineno,
            "indexing into non-array or non-component type"⟩]
        else [] := by
  have hc : ¬(index2.isNone = true ∧ expr.nodetype = .index_node
      ∧ expr.nchildren = 2) := fun h => hne h.2.1
  simp only [ASTindex_ctor]
  rw [if_neg hc]

lemma indexTypeOf_spec1 (t : TypeSpec) :
    indexTypeOf t false false = specIndexType t 1 := by
  by_cases h1 : t.is_array = true <;> by_cases h2 : t.is_triple = true <;>
    by_cases h3 : t.is_closure = true <;>
    simp [indexTypeOf, specIndexType, h1, h2, h3]

lemma indexTypeOf_spec2 (t : TypeSpec) :
    indexTypeOf t true false = specIndexType t 2 := by
  by_cases h1 : t.is_matrix = true <;> by_cases h2 : t.is_array = true <;>
    by_cases h3 : t.elementtype.is_triple = true <;>
    simp [indexTypeOf, specIndexType, h1, h2, h3]

lemma indexTypeOf_spec3 (t : TypeSpec) :
    indexTypeOf t true true = specIndexType t 3 := by
  by_cases h2 : t.is_array = true <;>
    by_cases h3 : t.elementtype.is_matrix = true <;>
    simp [indexTypeOf, specIndexType, h2, h3]

/-- C5: for an index node over a base expression (a variable reference or
struct select, as the constructor's invariant requires) and 1–3 index
expressions, the resolved type follows exactly the fixed table
(specIndexType), and the "indexing into non-array or non-component type"
error is reported exactly when the table leaves the type unknown. -/
theorem index_type_table (comp : OSLCompilerImpl) (expr index : ASTNode)
    (index2 index3 : Option ASTNode)
    (hnt : expr.nodetype = .variable_ref_node
        ∨ expr.nodetype = .structselect_node)
    (h23 : index3.isSome = true → index2.isSome = true) :
    ((ASTindex_ctor comp expr index index2 index3).1.typespec
      = specIndexType expr.typespec
          (1 + (if index2.isSome then 1 else 0)
            + (if index3.isSome then 1 else 0)))
  ∧ ((ASTindex_ctor comp expr index index2 index3).2
      = if (specIndexType expr.typespec
            (1 + (if index2.isSome then 1 else 0)
              + (if index3.isSome then 1 else 0))).is_unknown then
          [⟨.errorSev, comp.filename, comp.lineno,
            "indexing into non-array or non-component type"⟩]
        else []) := by
  have hne : ¬(expr.nodetype = .index_node) := by
    rcases hnt with h | h <;> simp [h]
  cases index2 with
  | none =>
    cases index3 with
    | none =>
      constructor
      · rw [ASTindex_ctor_typespec_no_flat comp expr index none none hne]
        simp [indexTypeOf_spec1]
      · rw [ASTindex_ctor_diags_no_flat comp expr index none none hne]
        simp [indexTypeOf_spec1]
    | some i3 => exact absurd (h23 rfl) (by simp)
  | some i2 =>
    cases index3 with
    | none =>
      constructor
      · rw [ASTindex_ctor_typespec_no_flat comp expr index (some i2) none
          hne]
        simp [indexTypeOf_spec2]
      · rw [ASTindex_ctor_diags_no_flat comp expr index (some i2) none hne]
        simp [indexTypeOf_spec2]
    | some i3 =>
      constructor
      · rw [ASTindex_ctor_typespec_no_flat comp expr index (some i2)
          (some i3) hne]
        simp [indexTypeOf_spec3]
      · rw [ASTindex_ctor_diags_no_flat comp expr index (some i2) (some i3)
          hne]
        simp [indexTypeOf_spec3]

/-- Witness for C5: one index into a color base resolves to float. -/
theorem index_type_table_witness :
    ((ASTindex_ctor {}
        ((baseNode .variable_ref_node {} 0 []).withTypespec
          { base := .colorT })
        (ASTliteral_int {} 0) none none).1.typespec
      = specIndexType { base := .colorT } 1)
  := (index_type_table {}
      ((baseNode .variable_ref_node {} 0 []).withTypespec
        { base := .colorT })
      (ASTliteral_int {} 0) none none (Or.inl rfl) (by simp)).1

/-- A child of a node is smaller than the node, for the termination of
the struct-select resolution below. -/
lemma sizeOf_child_head (nt : NodeType) (o : Int) (v : ASTNode)
    (chrest : List (Option ASTNode)) (nx : Option ASTNode) (ts : TypeSpec)
    (lv : Bool) (f : String) (l : Int) (li : Option LitVal) (nm : String)
    (fl : DeclFlags) (sy : Option Symbol) (ci : Option ASTNode) :
    sizeOf v < sizeOf (ASTNode.mk nt o (some v :: chrest) nx ts lv f l li
      nm fl sy ci) := by
  calc sizeOf v
      < 1 + sizeOf v := Nat.lt_one_add_iff.mpr (Nat.le_refl _)
    _ ≤ 1 + (1 + sizeOf v) := Nat.le_add_left _ _
    _ ≤ 1 + (1 + sizeOf v) + sizeOf chrest := Nat.le_add_right _ _
    _ ≤ 1 + sizeOf nt + sizeOf o
        + (1 + (1 + sizeOf v) + sizeOf chrest) := Nat.le_add_left _ _
    _ ≤ 1 + sizeOf nt + sizeOf o
        + (1 + (1 + sizeOf v) + sizeOf chrest) + sizeOf nx :=
        Nat.le_add_right _ _
    _ ≤ 1 + sizeOf nt + sizeOf o
        + (1 + (1 + sizeOf v) + sizeOf chrest) + sizeOf nx + sizeOf ts :=
        Nat.le_add_right _ _
    _ ≤ 1 + sizeOf nt + sizeOf o
        + (1 + (1 + sizeOf v) + sizeOf chrest) + sizeOf nx + sizeOf ts
        + sizeOf lv := Nat.le_add_right _ _
    _ ≤ 1 + sizeOf nt + sizeOf o
        + (1 + (1 + sizeOf v) + sizeOf chrest) + sizeOf nx + sizeOf ts
        + sizeOf lv + sizeOf f := Nat.le_add_right _ _
    _ ≤ 1 + sizeOf nt + sizeOf o
        + (1 + (1 + sizeOf v) + sizeOf chrest) + sizeOf nx + sizeOf ts
        + sizeOf lv + sizeOf f + sizeOf l := Nat.le_add_right _ _
    _ ≤ 1 + sizeOf nt + sizeOf o
        + (1 + (1 + sizeOf v) + sizeOf chrest) + sizeOf nx + sizeOf ts
        + sizeOf lv + sizeOf f + sizeOf l + sizeOf li :=
        Nat.le_add_right _ _
    _ ≤ 1 + sizeOf nt + sizeOf o
        + (1 + (1 + sizeOf v) + sizeOf chrest) + sizeOf nx + sizeOf ts
        + sizeOf lv + sizeOf f + sizeOf l + sizeOf li + sizeOf nm :=
        Nat.le_add_right _ _
    _ ≤ 1 + sizeOf nt + sizeOf o
        + (1 + (1 + sizeOf v) + sizeOf chrest) + sizeOf nx + sizeOf ts
        + sizeOf lv + sizeOf f + sizeOf l + sizeOf li + sizeOf nm
        + sizeOf fl := Nat.le_add_right _ _
    _ ≤ 1 + sizeOf nt + sizeOf o
        + (1 + (1 + sizeOf v) + sizeOf chrest) + sizeOf nx + sizeOf ts
        + sizeOf lv + sizeOf f + sizeOf l + sizeOf li + sizeOf nm
        + sizeOf fl + sizeOf sy := Nat.le_add_right _ _
    _ ≤ 1 + sizeOf nt + sizeOf o
        + (1 + (1 + sizeOf v) + sizeOf chrest) + sizeOf nx + sizeOf ts
        + sizeOf lv + sizeOf f + sizeOf l + sizeOf li + sizeOf nm
        + sizeOf fl + sizeOf sy + sizeOf ci := Nat.le_add_right _ _
    _ = sizeOf (ASTNode.mk nt o (some v :: chrest) nx ts lv f l li nm fl
        sy ci) := by
        rw [ASTNode.mk.sizeOf_spec, List.cons.sizeOf_spec,
          Option.some.sizeOf_spec]

/-- What ASTstructselect::find_fieldsym produces: the resolved field
symbol (null for the color/vector component sugar and on errors), the
struct and field ids it reports back, the synthesized component-index
node, the lvalue mark it sets, and the diagnostics it emits. -/
structure FieldsymResult where
  fieldsym : Option Symbol
  structid : Int
  fieldid : Int
  compindex : Option ASTNode
  is_lvalue : Bool
  diags : List Diag

mutual

/-- ASTstructselect::find_fieldsym, on a struct-select node (field name
in the name slot, base expression as only child): the two component
sugar cases first — a color exposes r,g,b and a vector/point/normal
exposes x,y,z as indices 0,1,2, synthesizing an index node over the base
with a literal index, marking the node an lvalue and resolving no field
symbol; otherwise the base must be a structure or structure array (else
the "does not have a member" error); flatten the base to a qualified
field-symbol name and look it up, with the "struct type ... does not
have a member" error for an unknown field. -/
def find_fieldsym (comp : OSLCompilerImpl) : ASTNode → FieldsymResult
  | .mk nt o ch nx ts lv f l li field fl sy ci =>
    match ch with
    | some lvnode :: chrest =>
      let lvtype := lvnode.typespec
      if lvtype.is_color ∧ (field = "r" ∨ field = "g" ∨ field = "b") then
        let fieldid : Int :=
          if field = "r" then 0 else if field = "g" then 1 else 2
        let ix := ASTindex_ctor comp lvnode (ASTliteral_int comp fieldid)
          none none
        { fieldsym := none, structid := -1, fieldid := fieldid,
          compindex := some ix.1, is_lvalue := true, diags := ix.2 }
      else if lvtype.is_vectriple
          ∧ (field = "x" ∨ field = "y" ∨ field = "z") then
        let fieldid : Int :=
          if field = "x" then 0 else if field = "y" then 1 else 2
        let ix := ASTindex_ctor comp lvnode (ASTliteral_int comp fieldid)
          none none
        { fieldsym := none, structid := -1, fieldid := fieldid,
          compindex := some ix.1, is_lvalue := true, diags := ix.2 }
      else if ¬(lvtype.is_structure ∨ lvtype.is_structure_array) then
        { fieldsym := none, structid := -1, fieldid := -1,
          compindex := none, is_lvalue := false,
          diags := [⟨.errorSev, f, l,
            "type \x27" ++ lvtype.str ++ "\x27 does not have a member \x27"
              ++ field ++ "\x27"⟩] }
      else
        let sres := find_structsym comp lvnode
        let structsymname := sres.1
        let structtype := sres.2.1
        let sdiags := sres.2.2
        let structid := structtype.structure_id
        let structspec := comp.structspecs.getD structid.toNat ⟨"", []⟩
        match structspec.fields.findIdx? (fun fr => fr.fname = field) with
        | none =>
          { fieldsym := none, structid := structid, fieldid := -1,
            compindex := none, is_lvalue := false,
            diags := sdiags ++ [⟨.errorSev, f, l,
              "struct type \x27" ++ structspec.sname
                ++ "\x27 does not have a member \x27" ++ field ++ "\x27"⟩] }
        | some i =>
          let fieldrec := structspec.fields.getD i ⟨"", {}⟩
          let fieldsymname := structsymname ++ "." ++ fieldrec.fname
          { fieldsym := comp.symtab.find fieldsymname, structid := structid,
            fieldid := i, compindex := none, is_lvalue := false,
            diags := sdiags }
    | _ =>
      -- the C++ code dereferences the (always present) base child; an
      -- absent child cannot arise from the constructor
      { fieldsym := none, structid := -1, fieldid := -1, compindex := none,
        is_lvalue := false, diags := [] }
  termination_by n => (sizeOf n, 0)
  decreasing_by
    exact Prod.Lex.left _ _ (sizeOf_child_head _ _ _ _ _ _ _ _ _ _ _ _ _ _)

/-- ASTstructselect::find_structsym: flatten a possibly nested struct
reference (struct variable, field of a struct, element of an array of
structs) to the name and type of the symbol standing for it.  A
malformed node is a fatal assertion in the C++ code; the model returns
an empty name and unknown type there. -/
def find_structsym (comp : OSLCompilerImpl) :
    ASTNode → String × TypeSpec × List Diag
  | .mk .variable_ref_node o ch nx ts lv f l li nm fl sy ci => (nm, ts, [])
  | .mk .structselect_node o ch nx ts lv f l li nm fl sy ci =>
    let r := find_fieldsym comp
      (.mk .structselect_node o ch nx ts lv f l li nm fl sy ci)
    match r.fieldsym with
    | some s => (s.name, s.typespec, r.diags)
    | none => ("", {}, r.diags)
  | .mk .index_node o (some base :: chrest) nx ts lv f l li nm fl sy ci =>
    let sres := find_structsym comp base
    (sres.1, { sres.2.1 with arr := .scalarA }, sres.2.2)
  | _ => ("", {}, [])
  termination_by m => (sizeOf m, 1)
  decreasing_by
    · exact Prod.Lex.right _ Nat.zero_lt_one
    · exact Prod.Lex.left _ _ (sizeOf_child_head _ _ _ _ _ _ _ _ _ _ _ _ _ _)

end

/-- The ASTstructselect constructor: a struct-select node over the base
expression carrying the field name; find_fieldsym resolves the field
(setting the lvalue mark and the synthesized component-index node in the
sugar cases); a resolved field symbol supplies the node's type, else a
synthesized component index makes the type scalar float. -/
def ASTstructselect_ctor (comp : OSLCompilerImpl) (expr : ASTNode)
    (field : String) : ASTNode × List Diag :=
  let base := (baseNode .structselect_node comp 0 [some expr]).withName field
  let r := find_fieldsym comp base
  let node0 :=
    ((base.withSym r.fieldsym).withCompindex r.compindex).withLvalue
      r.is_lvalue
  let node :=
    match r.fieldsym with
    | some s => node0.withTypespec s.typespec
    | none =>
      if r.compindex.isSome then node0.withTypespec floatTS else node0
  (node, r.diags)

lemma color_not_structure (t : TypeSpec) (h : t.is_color = true) :
    t.is_structure = false ∧ t.is_structure_array = false := by
  cases hb : t.base <;> simp_all [TypeSpec.is_color, TypeSpec.is_structure,
    TypeSpec.is_structure_array]

/-- C6: constructing a struct-select node over a color base with field r,
g or b (or a vector/point/normal base with field x, y or z) marks the
node as an lvalue, gives it scalar float type, synthesizes the
equivalent index node over the base with literal index 0, 1 or 2, and
resolves no underlying field symbol. -/
theorem structselect_component_sugar (comp : OSLCompilerImpl)
    (expr : ASTNode) (field : String) (idx : Int)
    (hc : (expr.typespec.is_color = true
            ∧ ((field = "r" ∧ idx = 0) ∨ (field = "g" ∧ idx = 1)
              ∨ (field = "b" ∧ idx = 2)))
        ∨ (expr.typespec.is_vectriple = true
            ∧ ((field = "x" ∧ idx = 0) ∨ (field = "y" ∧ idx = 1)
              ∨ (field = "z" ∧ idx = 2)))) :
    ((ASTstructselect_ctor comp expr field).1.is_lvalue = true)
  ∧ ((ASTstructselect_ctor comp expr field).1.typespec = floatTS)
  ∧ ((ASTstructselect_ctor comp expr field).1.sym = none)
  ∧ ((ASTstructselect_ctor comp expr field).1.compindex
      = some ((ASTindex_ctor comp expr (ASTliteral_int comp idx)
          none none).1))
  ∧ ((ASTstructselect_ctor comp expr field).2
      = (ASTindex_ctor comp expr (ASTliteral_int comp idx)
          none none).2) := by
  have main : find_fieldsym comp
      (ASTNode.mk .structselect_node 0 [some expr] none {} false
        comp.filename comp.lineno none field {} none none)
      = { fieldsym := none, structid := -1, fieldid := idx,
          compindex := some ((ASTindex_ctor comp expr
            (ASTliteral_int comp idx) none none).1),
          is_lvalue := true,
          diags := (ASTindex_ctor comp expr (ASTliteral_int comp idx)
            none none).2 } := by
    rcases hc with ⟨hcol, hf⟩ | ⟨hvec, hf⟩
    · have hcond : expr.typespec.is_color = true
          ∧ (field = "r" ∨ field = "g" ∨ field = "b") := by
        refine ⟨hcol, ?_⟩
        rcases hf with ⟨h, _⟩ | ⟨h, _⟩ | ⟨h, _⟩
        exacts [Or.inl h, Or.inr (Or.inl h), Or.inr (Or.inr h)]
      have hid : (if field = "r" then (0 : Int)
          else if field = "g" then 1 else 2) = idx := by
        rcases hf with ⟨h, hi⟩ | ⟨h, hi⟩ | ⟨h, hi⟩ <;> subst h <;>
          subst hi <;> simp
      simp only [find_fieldsym]
      rw [if_pos hcond, hid]
    · have hne1 : ¬(expr.typespec.is_color = true
          ∧ (field = "r" ∨ field = "g" ∨ field = "b")) := by
        rcases hf with ⟨h, _⟩ | ⟨h, _⟩ | ⟨h, _⟩ <;> subst h <;>
          rintro ⟨-, h | h | h⟩ <;> exact absurd h (by decide)
      have hcond : expr.typespec.is_vectriple = true
          ∧ (field = "x" ∨ field = "y" ∨ field = "z") := by
        refine ⟨hvec, ?_⟩
        rcases hf with ⟨h, _⟩ | ⟨h, _⟩ | ⟨h, _⟩
        exacts [Or.inl h, Or.inr (Or.inl h), Or.inr (Or.inr h)]
      have hid : (if field = "x" then (0 : Int)
          else if field = "y" then 1 else 2) = idx := by
        rcases hf with ⟨h, hi⟩ | ⟨h, hi⟩ | ⟨h, hi⟩ <;> subst h <;>
          subst hi <;> simp
      simp only [find_fieldsym]
      rw [if_neg hne1, if_pos hcond, hid]
  have hctor : ASTstructselect_ctor comp expr field
      = (ASTNode.mk .structselect_node 0 [some expr] none floatTS true
          comp.filename comp.lineno none field {} none
          (some ((ASTindex_ctor comp expr (ASTliteral_int comp idx)
            none none).1)),
         (ASTindex_ctor comp expr (ASTliteral_int comp idx) none none).2)
      := by
    simp only [ASTstructselect_ctor, baseNode, ASTNode.withName, main]
    rfl
  rw [hctor]
  exact ⟨rfl, rfl, rfl, rfl, rfl⟩

/-- Witness for C6: `c.r` on a color variable reference. -/
theorem structselect_component_sugar_witness :
    ((ASTstructselect_ctor {}
        ((baseNode .variable_ref_node {} 0 []).withTypespec
          { base := .colorT }) "r").1.is_lvalue = true) :=
  (structselect_component_sugar {}
    ((baseNode .variable_ref_node {} 0 []).withTypespec
      { base := .colorT }) "r" 0 (by decide)).1

/-- Modelled from the spec: the compiler's canonical type encoding
(code_from_type) used to build argument-signature strings; any injective
rendering serves this model. -/
def codeFromType (t : TypeSpec) : String := "|" ++ t.str

/-- ASTNode::list_to_types_string: the comma-joined rendering of each
list entry's type, for diagnostics. -/
def list_to_types_string : List ASTNode → String
  | [] => ""
  | [v] => v.typespec.str
  | v :: rest => v.typespec.str ++ ", " ++ list_to_types_string rest

/-- The formal-parameter scan of the ASTfunction_declaration constructor:
walk the formals in order; a formal of UNKNOWN type aborts the scan (the
constructor returns early), reporting nothing for it or any later
formal; otherwise append the formal's type code and report an error if
it carries a default initializer.  Returns the accumulated argument
codes (none when aborted) and the diagnostics in order. -/
def funcArgcodesScan : List ASTNode → Option String × List Diag
  | [] => (some "", [])
  | v :: rest =>
    if v.typespec = ({} : TypeSpec) then (none, [])
    else
      let d : List Diag :=
        if (v.init).isSome then
          [⟨.errorSev, v.sourcefile, v.sourceline,
            "function parameter \x27" ++ v.name
              ++ "\x27 may not have a default initializer."⟩]
        else []
      match funcArgcodesScan rest with
      | (none, ds) => (none, d ++ ds)
      | (some s, ds) => (some (codeFromType v.typespec ++ s), d ++ ds)

/-- The default-initializer diagnostics of a formal list, one per formal
carrying an initializer, in order. -/
def initErrDiags : List ASTNode → List Diag
  | [] => []
  | v :: rest =>
    (if (v.init).isSome then
      [⟨.errorSev, v.sourcefile, v.sourceline,
        "function parameter \x27" ++ v.name
          ++ "\x27 may not have a default initializer."⟩]
    else []) ++ initErrDiags rest

/-- The redefinition-conflict locations drawn from a polymorphic chain:
entries in the same scope with the same argument codes whose declaration
has a body or is a builtin (a chain entry with no node at all prints as
built-in). -/
def polyConflictLocs (cur : Int) (ac : String) : List PolyEntry → List String
  | [] => []
  | e :: rest =>
    (if e.scope = cur ∧ e.argcodes = ac then
      match e.node with
      | none => ["built-in"]
      | some ni =>
        if ni.has_statements || ni.is_builtin then
          [filenamePart ni.file ++ ":" ++ toString ni.line]
        else []
    else [])
      ++ polyConflictLocs cur ac rest

/-- The redefinition warning text listing every previous definition. -/
def redefinitionWarning (rettype : TypeSpec) (name : String)
    (formals : List ASTNode) (locs : List String) : String :=
  "Function \x27" ++ rettype.str ++ " " ++ name ++ " ("
    ++ list_to_types_string formals
    ++ ")\x27 redefined in the same scope\n  Previous definitions:"
    ++ String.join (locs.map (fun s => "\n    " ++ s))

/-- What the ASTfunction_declaration constructor produces: the node, the
symbol table afterwards, the diagnostics, and whether the immediate
typecheck ran. -/
structure FuncDeclResult where
  node : ASTNode
  symtab : SymbolTable
  diags : List Diag
  typechecked : Bool

/-- The ASTfunction_declaration constructor: substitute the
declaration-start line; reject reserved names; a clashing non-function
symbol is an error and discards the chain; scan the formals building the
signature encoding — a formal of UNKNOWN type makes the declaration's
own type UNKNOWN and returns at once (no symbol created or inserted, no
redefinition check, no immediate typecheck) — and reject default
initializers on formals; when a body is present, warn about a
same-signature same-scope redefinition listing every previous
definition; then create the function symbol heading the polymorphic
chain, insert it, and typecheck immediately. -/
def ASTfunction_declaration_ctor (comp : OSLCompilerImpl)
    (rettype : TypeSpec) (name : String) (form stmts meta : Option ASTNode)
    (sourceline_start : Int) : FuncDeclResult :=
  let line := if sourceline_start ≥ 0 then sourceline_start else comp.lineno
  let underscoreDiags : List Diag :=
    if name.startsWith "___" then
      [⟨.errorSev, comp.filename, line, underscoresMsg name⟩]
    else []
  let clashRes : Option Symbol × List Diag :=
    match comp.symtab.clash name with
    | some s =>
      if s.symtype ≠ .SymTypeFunction then
        (none, [⟨.errorSev, comp.filename, line,
          "\"" ++ name ++ "\" already declared in this scope as a "
            ++ s.typespec.str⟩])
      else (some s, [])
    | none => (none, [])
  let existing := clashRes.1
  let clashDiags := clashRes.2
  let formals := chainToList form
  let node0 :=
    (((baseNode .function_declaration_node comp 0
      [meta, form, stmts]).withName name).withSourceline line)
  match funcArgcodesScan formals with
  | (none, initDiags) =>
    { node := node0.withTypespec {}, symtab := comp.symtab,
      diags := underscoreDiags ++ clashDiags ++ initDiags,
      typechecked := false }
  | (some argstr, initDiags) =>
    let argcodes := codeFromType rettype ++ argstr
    let polylist := match existing with
      | some s => s.polyinfo
      | none => []
    let locs :=
      if stmts.isSome then
        polyConflictLocs comp.symtab.scopeid argcodes polylist
      else []
    let warnDiags : List Diag :=
      if stmts.isSome && !locs.isEmpty then
        [⟨.warningSev, comp.filename, line,
          redefinitionWarning rettype name formals locs⟩]
      else []
    let sym : Symbol :=
      { name := name, typespec := rettype, symtype := .SymTypeFunction,
        node := some (comp.filename, line), argcodes := argcodes,
        polyinfo :=
          { scope := comp.symtab.scopeid, argcodes := argcodes,
            node := some { file := comp.filename, line := line,
                           has_statements := stmts.isSome,
                           is_builtin := false } } :: polylist }
    { node := (node0.withTypespec rettype).withSym (some sym),
      symtab := comp.symtab.insert sym,
      diags := underscoreDiags ++ clashDiags ++ initDiags ++ warnDiags,
      typechecked := true }

lemma funcArgcodesScan_early (pre : List ASTNode) (u : ASTNode)
    (rest : List ASTNode) (hpre : ∀ v ∈ pre, v.typespec ≠ ({} : TypeSpec))
    (hu : u.typespec = ({} : TypeSpec)) :
    funcArgcodesScan (pre ++ u :: rest) = (none, initErrDiags pre) := by
  induction pre with
  | nil => simp [funcArgcodesScan, initErrDiags, hu]
  | cons v tl ih =>
    have hv : v.typespec ≠ ({} : TypeSpec) :=
      hpre v (List.mem_cons_self v tl)
    have ihtl := ih (fun w hw => hpre w (List.mem_cons_of_mem v hw))
    simp [funcArgcodesScan, hv, List.append_eq, ihtl, initErrDiags]

/-- C9: if any formal of a function declaration has unknown (unresolved)
type, the constructor sets the declaration's own type to unknown and
returns immediately — no function symbol is created or inserted, the
symbol table is unchanged, no redefinition check against the polymorphic
chain runs, and the immediate typecheck is skipped — while the
default-initializer errors for the formals before the unknown one are
still reported. -/
theorem funcdecl_unknown_formal_early_return (comp : OSLCompilerImpl)
    (rettype : TypeSpec) (name : String) (form stmts meta : Option ASTNode)
    (sls : Int) (pre : List ASTNode) (u : ASTNode) (rest : List ASTNode)
    (hsplit : chainToList form = pre ++ u :: rest)
    (hpre : ∀ v ∈ pre, v.typespec ≠ ({} : TypeSpec))
    (hu : u.typespec = ({} : TypeSpec))
    (hname : name.startsWith "___" = false)
    (hclash : comp.symtab.clash name = none) :
    ((ASTfunction_declaration_ctor comp rettype name form stmts meta
        sls).node.typespec = ({} : TypeSpec))
  ∧ ((ASTfunction_declaration_ctor comp rettype name form stmts meta
        sls).node.sym = none)
  ∧ ((ASTfunction_declaration_ctor comp rettype name form stmts meta
        sls).symtab = comp.symtab)
  ∧ ((ASTfunction_declaration_ctor comp rettype name form stmts meta
        sls).typechecked = false)
  ∧ ((ASTfunction_declaration_ctor comp rettype name form stmts meta
        sls).diags = initErrDiags pre) := by
  have hscan := funcArgcodesScan_early pre u rest hpre hu
  have hres : ASTfunction_declaration_ctor comp rettype name form stmts meta
      sls
      = { node := (((baseNode .function_declaration_node comp 0
            [meta, form, stmts]).withName name).withSourceline
              (if sls ≥ 0 then sls else comp.lineno)).withTypespec {},
          symtab := comp.symtab, diags := initErrDiags pre,
          typechecked := false } := by
    simp only [ASTfunction_declaration_ctor, hclash, hname, hsplit, hscan,
      Bool.false_eq_true, if_false, List.nil_append]
  rw [hres]
  exact ⟨rfl, rfl, rfl, rfl, rfl⟩

/-- An unknown-typed formal named b, for the C9 witness. -/
def fdw_formal2 : ASTNode :=
  (baseNode .variable_declaration_node {} 0 [none, none]).withName "b"

/-- An int formal named a carrying a default initializer and chained to
[[fdw_formal2]], for the C9 witness. -/
def fdw_formal1 : ASTNode :=
  ((((baseNode .variable_declaration_node {} 0
    [some (ASTliteral_int {} 1), none]).withName "a").withTypespec
      intTS).withNext (some fdw_formal2))

/-- Witness for C9: a declaration with one well-typed
initializer-carrying formal followed by an unknown-typed formal keeps
only the initializer error and skips the immediate typecheck. -/
theorem funcdecl_unknown_formal_early_return_witness :
    ((ASTfunction_declaration_ctor {} intTS "f" (some fdw_formal1)
        none none (-1)).typechecked = false) := by
  have h := funcdecl_unknown_formal_early_return {} intTS "f"
    (some fdw_formal1) none none (-1) [fdw_formal1] fdw_formal2 []
    (by simp [chainToList, fdw_formal1, fdw_formal2, baseNode,
      ASTNode.withName, ASTNode.withTypespec, ASTNode.withNext,
      ASTliteral_int, ASTNode.withLit])
    (by intro v hv
        simp only [List.mem_singleton] at hv
        subst hv
        decide)
    rfl rfl rfl
  exact h.2.2.2.1

end OSLAST
